import Mathlib

/-!
# Verification of the `empty-bucket` pagination-and-bulk-delete control loop

Shallow embedding of `src/index.js`. The program lists pages of S3 objects
(resp. object versions and delete markers), issues bulk-delete calls, and
drives both passes with a generic `doUntil` promise loop.

Modelling conventions:

* A settled JavaScript promise value is `Except ε α` (`.ok` = fulfilled,
  `.error` = rejected).  A callback-style step that mutates closure
  variables and then either resolves or rejects is a pure function
  `σ → σ × Option ε` (new state, plus `some e` when it rejected).
* The remote S3 service is an oracle ("world"): a function from the index
  of the call (how many such calls this pass issued before) to the call's
  outcome.  List calls and delete calls are counted in the pass state, so
  the theorems can speak about how many calls a run issued.
* `process.exit(n)` terminates the process, so the orchestrator model
  (`main`) turns the first `onError` invocation of a pass into the
  corresponding exit code and stops.
* JavaScript truthiness of an optional string (`if (obj.VersionId)`,
  `!marker`) is `jsTruthy`: `undefined` and the empty string are falsy,
  every other string is truthy.
* The `doUntil` loop has no iteration bound in the source, so the model
  takes a fuel argument; `none` means the fuel ran out before the loop
  settled.
-/

/-- JavaScript truthiness of an optional string value: `undefined` (here
`none`) and `""` are falsy, every other string is truthy.  Embeds the
conditions `if (obj.VersionId)`, `!marker` and `!keyMarker` of
`src/index.js`. -/
def jsTruthy : Option String → Bool
  | none => false
  | some s => s ≠ ""

/-- An object reference as listed by S3: a key plus an optional version
identifier (`Contents`, `Versions` and `DeleteMarkers` entries). -/
structure ObjRef where
  Key : String
  VersionId : Option String
deriving Repr, DecidableEq

/-- One entry of the `Delete.Objects` array built by `deleteObjects`:
the JS code pushes `{Key, VersionId}` when `obj.VersionId` is truthy and
`{Key}` (no version) otherwise. -/
structure DeleteEntry where
  Key : String
  VersionId : Option String
deriving Repr, DecidableEq

/-- Embedding of the batch construction of `deleteObjects`
(src/index.js lines 59-79): the `objects.forEach` loop pushing one entry
per object onto `params.Delete.Objects`, including the version identifier
exactly when `obj.VersionId` is truthy. -/
def deleteObjects (objects : List ObjRef) : List DeleteEntry :=
  objects.foldl
    (fun acc obj =>
      if jsTruthy obj.VersionId then
        acc ++ [{ Key := obj.Key, VersionId := obj.VersionId }]
      else
        acc ++ [{ Key := obj.Key, VersionId := none }])
    []

/-- Response of one `listObjectsV2` call, as used by the objects pass:
the page of current objects and the optional continuation token. -/
structure ListObjectsResult where
  NextContinuationToken : Option String
  Contents : List ObjRef
deriving Repr, DecidableEq

/-- Response of one `listObjectVersions` call, as used by the versions
pass. -/
structure ListVersionsResult where
  IsTruncated : Bool
  NextKeyMarker : Option String
  NextVersionIdMarker : Option String
  Versions : List ObjRef
  DeleteMarkers : List ObjRef
deriving Repr, DecidableEq

/-- Embedding of `doUntil(action, condition, error)`
(src/index.js lines 207-229), with explicit fuel.

The JS `loop` runs `wrap(action).then(() => { if (!condition()) return
loop(); }).catch((err) => error(err))`.  So: a rejection of `action`
propagates through the `then` into this level's `catch`, which invokes
`onError` and settles the promise with `onError`'s own outcome; when
`condition()` is true the promise fulfills; otherwise the promise adopts
the recursive `loop()` promise, whose own `catch` has already handled any
deeper failure — the outer `catch` fires again only if the inner promise
itself rejected (i.e. only if `onError` threw).

The result is `some (finalState, promiseOutcome, onErrorCalls)` where
`onErrorCalls` lists the errors `onError` was invoked with, in order, or
`none` when the fuel was exhausted before the loop settled. -/
def doUntil {σ ε : Type} (action : σ → σ × Option ε) (condition : σ → Bool)
    (onError : ε → Except ε Unit) :
    Nat → σ → Option (σ × Except ε Unit × List ε)
  | 0, _ => none
  | fuel + 1, s =>
    match action s with
    | (s', some e) => some (s', onError e, [e])
    | (s', none) =>
      if condition s' then
        some (s', Except.ok (), [])
      else
        match doUntil action condition onError fuel s' with
        | none => none
        | some (s'', Except.ok _, evs) => some (s'', Except.ok (), evs)
        | some (s'', Except.error e2, evs) => some (s'', onError e2, evs ++ [e2])

/-- The remote side of the objects pass: outcome of the n-th `listObjectsV2`
call and of the n-th `deleteObjects` call issued by the pass. -/
structure ObjectsWorld (ε : Type) where
  listResp : Nat → Except ε ListObjectsResult
  deleteResp : Nat → Except ε Unit

/-- Mutable state of the objects pass: the closure variable `marker`,
plus instrumentation counting the list calls issued and recording the
batch of every delete call issued (in order). -/
structure ObjectsState where
  marker : Option String
  listCalls : Nat
  deleteBatches : List (List DeleteEntry)
deriving Repr, DecidableEq

/-- Initial state of the objects pass: `let marker = undefined`, no calls
issued yet. -/
def objInit : ObjectsState := { marker := none, listCalls := 0, deleteBatches := [] }

/-- Embedding of the objects-pass action closure (src/index.js lines
103-124): issue a list call; on failure reject; otherwise set `marker`
from `NextContinuationToken`, resolve immediately when the page is empty,
and otherwise issue one delete call for the whole page, rejecting if it
fails. -/
def objectsAction {ε : Type} (w : ObjectsWorld ε) (st : ObjectsState) :
    ObjectsState × Option ε :=
  let i := st.listCalls
  let st1 := { st with listCalls := i + 1 }
  match w.listResp i with
  | Except.error e => (st1, some e)
  | Except.ok resultList =>
    let st2 := { st1 with marker := resultList.NextContinuationToken }
    if resultList.Contents.length = 0 then
      (st2, none)
    else
      let batch := deleteObjects resultList.Contents
      let j := st2.deleteBatches.length
      let st3 := { st2 with deleteBatches := st2.deleteBatches ++ [batch] }
      match w.deleteResp j with
      | Except.error e => (st3, some e)
      | Except.ok _ => (st3, none)

/-- The objects-pass loop condition `() => !marker`
(src/index.js lines 125-127). -/
def objCond (st : ObjectsState) : Bool := !(jsTruthy st.marker)

/-- The remote side of the versions pass: outcome of the n-th
`listObjectVersions` call and of the n-th `deleteObjects` call issued by
the pass. -/
structure VersionsWorld (ε : Type) where
  listResp : Nat → Except ε ListVersionsResult
  deleteResp : Nat → Except ε Unit

/-- Mutable state of the versions pass: the closure variables `keyMarker`
and `versionMarker`, plus instrumentation as in `ObjectsState`. -/
structure VersionsState where
  keyMarker : Option String
  versionMarker : Option String
  listCalls : Nat
  deleteBatches : List (List DeleteEntry)
deriving Repr, DecidableEq

/-- Initial state of the versions pass. -/
def verInit : VersionsState :=
  { keyMarker := none, versionMarker := none, listCalls := 0, deleteBatches := [] }

/-- Embedding of the versions-pass action closure (src/index.js lines
139-176): issue a version-list call; on failure reject; update both
markers from the response when it is truncated and reset both to
`undefined` otherwise; resolve immediately when `DeleteMarkers` is empty
(note: this tests only the delete-marker subset); otherwise build
`toDelete` as `Versions` followed by `DeleteMarkers` (each pushed only
when present and non-empty) and issue one delete call for it when it is
non-empty. -/
def versionsAction {ε : Type} (w : VersionsWorld ε) (st : VersionsState) :
    VersionsState × Option ε :=
  let i := st.listCalls
  let st1 := { st with listCalls := i + 1 }
  match w.listResp i with
  | Except.error e => (st1, some e)
  | Except.ok resultList =>
    let st2 :=
      if resultList.IsTruncated then
        { st1 with
          keyMarker := resultList.NextKeyMarker
          versionMarker := resultList.NextVersionIdMarker }
      else
        { st1 with keyMarker := none, versionMarker := none }
    if resultList.DeleteMarkers.length = 0 then
      (st2, none)
    else
      let toDelete : List ObjRef :=
        (if resultList.Versions.length > 0 then resultList.Versions else []) ++
          (if resultList.DeleteMarkers.length > 0 then resultList.DeleteMarkers else [])
      if toDelete.length > 0 then
        let j := st2.deleteBatches.length
        let st3 := { st2 with deleteBatches := st2.deleteBatches ++ [deleteObjects toDelete] }
        match w.deleteResp j with
        | Except.error e => (st3, some e)
        | Except.ok _ => (st3, none)
      else
        (st2, none)

/-- The versions-pass loop condition `() => !keyMarker`
(src/index.js lines 177-179). -/
def verCond (st : VersionsState) : Bool := !(jsTruthy st.keyMarker)

/-- The `onError` handlers of both passes log and call `process.exit`,
which never returns and never throws; at the promise level they settle
normally.  Their terminating effect is modelled in `main`. -/
def onErrOk {ε : Type} : ε → Except ε Unit := fun _ => Except.ok ()

/-- Pass 1 of `main`: the objects-deletion `doUntil` loop
(src/index.js lines 100-136). -/
def pass1Run {ε : Type} (fuel : Nat) (w : ObjectsWorld ε) :
    Option (ObjectsState × Except ε Unit × List ε) :=
  doUntil (objectsAction w) objCond onErrOk fuel objInit

/-- Pass 2 of `main`: the versions-deletion `doUntil` loop
(src/index.js lines 137-190). -/
def pass2Run {ε : Type} (fuel : Nat) (w : VersionsWorld ε) :
    Option (VersionsState × Except ε Unit × List ε) :=
  doUntil (versionsAction w) verCond onErrOk fuel verInit

/-- Outcome of one run of `main`: the exit code and the final
instrumented state of each pass (`verInit` when pass 2 never started). -/
structure MainResult where
  exitCode : Nat
  objState : ObjectsState
  verState : VersionsState
deriving Repr, DecidableEq

/-- Embedding of the function `main` of the source (src/index.js lines 100-195), named `mainRun` here because Lean reserves `main` for executables.  Pass 1 runs first;
if its `onError` fired, the process exits with code 1 and pass 2 never
starts.  Otherwise pass 2 runs; if its `onError` fired, the process exits
with code 2.  Otherwise the success log line runs (`finalLog` models
`logger.log`, which could itself throw): exit 0 when it settles normally,
and exit 3 via the final `.catch` when it throws.  `none` means some
loop's fuel ran out. -/
def mainRun {ε : Type} (fuel : Nat) (w1 : ObjectsWorld ε) (w2 : VersionsWorld ε)
    (finalLog : Except ε Unit) : Option MainResult :=
  match pass1Run fuel w1 with
  | none => none
  | some (st1, _, evs1) =>
    if evs1.isEmpty then
      match pass2Run fuel w2 with
      | none => none
      | some (st2, _, evs2) =>
        if evs2.isEmpty then
          match finalLog with
          | Except.ok _ => some { exitCode := 0, objState := st1, verState := st2 }
          | Except.error _ => some { exitCode := 3, objState := st1, verState := st2 }
        else
          some { exitCode := 2, objState := st1, verState := st2 }
    else
      some { exitCode := 1, objState := st1, verState := verInit }

/-! ## Concrete environments used by the scenario claims -/

/-- A well-behaved remote bucket that is already empty and not versioned:
every `listObjectsV2` call returns an empty page with no continuation
token. -/
def emptyBucketObjectsWorld (ε : Type) : ObjectsWorld ε where
  listResp := fun _ =>
    Except.ok { NextContinuationToken := none, Contents := [] }
  deleteResp := fun _ => Except.ok ()

/-- The versions side of an empty, non-versioned bucket: every
`listObjectVersions` call reports no truncation and empty `Versions` and
`DeleteMarkers` pages. -/
def emptyBucketVersionsWorld (ε : Type) : VersionsWorld ε where
  listResp := fun _ =>
    Except.ok
      { IsTruncated := false, NextKeyMarker := none, NextVersionIdMarker := none,
        Versions := [], DeleteMarkers := [] }
  deleteResp := fun _ => Except.ok ()

/-- A remote whose first list response carries an empty page of objects
*and* a continuation token, and whose second response is a final empty
page.  (The S3 protocol permits such a response.) -/
def emptyPageWithTokenWorld : ObjectsWorld String where
  listResp := fun n =>
    if n = 0 then
      Except.ok { NextContinuationToken := some "token", Contents := [] }
    else
      Except.ok { NextContinuationToken := none, Contents := [] }
  deleteResp := fun _ => Except.ok ()

/-- A versioned bucket whose single version-listing page holds one object
version and no delete markers (V = 1, D = 0), with no truncation. -/
def versionOnlyPageWorld : VersionsWorld String where
  listResp := fun _ =>
    Except.ok
      { IsTruncated := false, NextKeyMarker := none, NextVersionIdMarker := none,
        Versions := [{ Key := "key1", VersionId := some "v1" }],
        DeleteMarkers := [] }
  deleteResp := fun _ => Except.ok ()

/-- A remote whose very first list call fails (e.g. a network error). -/
def failingListWorld : ObjectsWorld String where
  listResp := fun _ => Except.error "NetworkingError"
  deleteResp := fun _ => Except.ok ()

/-- A faithful paginated view of a finite backing collection of objects
`keys` with page size `P` under the `listObjectsV2` protocol, assuming
every issued delete call succeeds (the error-free run of C7): the n-th
list call sees the collection with the first `n` pages already deleted,
returns up to `P` of the remaining objects, and carries a continuation
token exactly when more objects remain beyond the returned page. -/
def storeWorld (P : Nat) (keys : List ObjRef) (ε : Type) : ObjectsWorld ε where
  listResp := fun n =>
    Except.ok
      { NextContinuationToken :=
          if P < keys.length - n * P then some "token" else none,
        Contents := (keys.drop (n * P)).take P }
  deleteResp := fun _ => Except.ok ()

/-- Number of list calls an error-free objects pass over a backing
collection of `K` objects with page size `P` performs: `⌈K/P⌉` calls when
`K > 0`, and one terminating call that observes the empty collection when
`K = 0`. -/
def listCallsForStore (K P : Nat) : Nat :=
  if K = 0 then 1 else (K + P - 1) / P

/-- Number of list calls the objects pass still performs when `n` list
calls have already been issued against `storeWorld P keys` (`K` is the
collection size). -/
def objRemainingCalls (K P n : Nat) : Nat :=
  if K ≤ n * P + P then 1 else (K - n * P + P - 1) / P

/-- The per-entry shape of the `Delete.Objects` entry that `deleteObjects`
builds from one listed object: the version identifier is kept exactly when
it is truthy. -/
def deleteEntryOf (obj : ObjRef) : DeleteEntry :=
  if jsTruthy obj.VersionId then
    { Key := obj.Key, VersionId := obj.VersionId }
  else
    { Key := obj.Key, VersionId := none }

/-- A versioned bucket listed in two pages: the first version-list
response is truncated and carries both next markers, the second reports
no truncation. -/
def truncatedThenDoneVersionsWorld : VersionsWorld String where
  listResp := fun n =>
    if n = 0 then
      Except.ok
        { IsTruncated := true, NextKeyMarker := some "k1",
          NextVersionIdMarker := some "v1",
          Versions := [{ Key := "k0", VersionId := some "v0" }],
          DeleteMarkers := [{ Key := "k0", VersionId := some "m0" }] }
    else
      Except.ok
        { IsTruncated := false, NextKeyMarker := none,
          NextVersionIdMarker := none, Versions := [], DeleteMarkers := [] }
  deleteResp := fun _ => Except.ok ()

/-! ## Generic properties of the `doUntil` driver -/

/-- Helper: when `onError` always settles normally (as both handlers of
`src/index.js` do — they end in `process.exit`), every settled `doUntil`
run fulfills its promise and invoked `onError` at most once. -/
lemma doUntil_settled {σ ε : Type} (action : σ → σ × Option ε) (condition : σ → Bool)
    (onError : ε → Except ε Unit) (honk : ∀ e, onError e = Except.ok ()) :
    ∀ (fuel : Nat) (s s' : σ) (res : Except ε Unit) (evs : List ε),
      doUntil action condition onError fuel s = some (s', res, evs) →
      res = Except.ok () ∧ evs.length ≤ 1 := by
  intro fuel
  induction fuel with
  | zero => intro s s' res evs h; simp [doUntil] at h
  | succ n ih =>
    intro s s' res evs h
    rcases ha : action s with ⟨s1, oe⟩
    rcases oe with _ | e
    · simp only [doUntil, ha] at h
      by_cases hc : condition s1
      · rw [if_pos hc] at h
        simp only [Option.some.injEq, Prod.mk.injEq] at h
        refine ⟨h.2.1.symm, ?_⟩
        rw [← h.2.2]; simp
      · rw [if_neg hc] at h
        rcases hr : doUntil action condition onError n s1 with _ | ⟨s2, res2, evs2⟩
        · rw [hr] at h; simp at h
        · rw [hr] at h
          rcases ih s1 s2 res2 evs2 hr with ⟨hres2, hlen2⟩
          subst hres2
          simp only [Option.some.injEq, Prod.mk.injEq] at h
          refine ⟨h.2.1.symm, ?_⟩
          rw [← h.2.2]; exact hlen2
    · simp only [doUntil, ha, honk e] at h
      simp only [Option.some.injEq, Prod.mk.injEq] at h
      refine ⟨h.2.1.symm, ?_⟩
      rw [← h.2.2]; simp

/-- **C3.** One run of the pagination driver `doUntil(action, condition,
onError)` (with the handlers of this program, which settle normally):
each step awaits `action`; if the action fails, `onError` is invoked
exactly once with that error and the pass terminates with the driver's
promise fulfilled (never rejected); if the action succeeds, `condition`
is evaluated — the driver resolves when it is true and repeats the step
when it is false.  The last conjunct states the run-wide guarantee: every
settled run fulfills and invokes `onError` at most once. -/
theorem doUntil_step_semantics {σ ε : Type} (action : σ → σ × Option ε)
    (condition : σ → Bool) (onError : ε → Except ε Unit)
    (honk : ∀ e, onError e = Except.ok ()) (fuel : Nat) (s : σ) :
    (∀ s' e, action s = (s', some e) →
        doUntil action condition onError (fuel + 1) s = some (s', Except.ok (), [e]))
    ∧ (∀ s', action s = (s', none) → condition s' = true →
        doUntil action condition onError (fuel + 1) s = some (s', Except.ok (), []))
    ∧ (∀ s', action s = (s', none) → condition s' = false →
        doUntil action condition onError (fuel + 1) s =
          doUntil action condition onError fuel s')
    ∧ (∀ s'' res evs, doUntil action condition onError fuel s = some (s'', res, evs) →
        res = Except.ok () ∧ evs.length ≤ 1) := by
  refine ⟨?_, ?_, ?_, ?_⟩
  · intro s' e ha
    simp only [doUntil, ha, honk e]
  · intro s' ha hc
    simp only [doUntil, ha, hc, if_true]
  · intro s' ha hc
    simp only [doUntil, ha, hc, Bool.false_eq_true, if_false]
    rcases hr : doUntil action condition onError fuel s' with _ | ⟨s2, res2, evs2⟩
    · rfl
    · rcases doUntil_settled action condition onError honk fuel s' s2 res2 evs2 hr
        with ⟨hres2, _⟩
      subst hres2
      rfl
  · intro s'' res evs h
    exact doUntil_settled action condition onError honk fuel s s'' res evs h

/-- Witness for C3: a concrete driver run (counting to 2) where one
repeat step of the characterization applies. -/
theorem doUntil_step_semantics_witness :
    doUntil (fun (n : Nat) => (n + 1, (none : Option Unit)))
        (fun n => decide (2 ≤ n)) (fun _ => Except.ok ()) 2 0 =
      doUntil (fun (n : Nat) => (n + 1, (none : Option Unit)))
        (fun n => decide (2 ≤ n)) (fun _ => Except.ok ()) 1 1 :=
  (doUntil_step_semantics (fun (n : Nat) => (n + 1, (none : Option Unit)))
    (fun n => decide (2 ≤ n)) (fun _ => Except.ok ()) (fun _ => rfl) 1 0).2.2.1 1 rfl rfl

/-- **C10.** The promise returned by `doUntil` always resolves and never
rejects when `onError` settles normally — any failure of a list or delete
action inside a pass is consumed by that pass's `onError` handler — so
the orchestrator's final catch (exit code 3) is unreachable from remote
list/delete failures: with the success log settling normally, no remote
behavior whatsoever can make `mainRun` exit with code 3.  (Exit 3 can
only arise from an error outside the two passes, e.g. the success log
itself throwing, cf. the exit-code characterization of C4.) -/
theorem doUntil_never_rejects_exit3_only_outside_passes :
    (∀ (σ ε : Type) (action : σ → σ × Option ε) (condition : σ → Bool)
        (onError : ε → Except ε Unit), (∀ e, onError e = Except.ok ()) →
        ∀ fuel s s' res evs,
          doUntil action condition onError fuel s = some (s', res, evs) →
          res = Except.ok ())
    ∧ (∀ (ε : Type) (fuel : Nat) (w1 : ObjectsWorld ε) (w2 : VersionsWorld ε)
        (r : MainResult), mainRun fuel w1 w2 (Except.ok ()) = some r →
        r.exitCode ≠ 3) := by
  constructor
  · intro σ ε action condition onError honk fuel s s' res evs h
    exact (doUntil_settled action condition onError honk fuel s s' res evs h).1
  · intro ε fuel w1 w2 r h
    unfold mainRun at h
    rcases h1 : pass1Run fuel w1 with _ | ⟨st1, res1, evs1⟩ <;> rw [h1] at h
    · simp at h
    · by_cases he1 : evs1.isEmpty <;> simp only [he1, if_true, if_false, Bool.false_eq_true] at h
      · rcases h2 : pass2Run fuel w2 with _ | ⟨st2, res2, evs2⟩ <;> rw [h2] at h
        · simp at h
        · by_cases he2 : evs2.isEmpty <;>
            simp only [he2, if_true, if_false, Bool.false_eq_true] at h
          · rw [← Option.some.inj h]; simp
          · rw [← Option.some.inj h]; simp
      · rw [← Option.some.inj h]; simp

/-- Witness for C10: the run over a concrete (empty) bucket exits with a
code different from 3. -/
theorem doUntil_never_rejects_exit3_witness :
    ({ exitCode := 0,
       objState := { marker := none, listCalls := 1, deleteBatches := [] },
       verState :=
        { keyMarker := none, versionMarker := none, listCalls := 1,
          deleteBatches := [] } } : MainResult).exitCode ≠ 3 :=
  doUntil_never_rejects_exit3_only_outside_passes.2 Unit 1
    (emptyBucketObjectsWorld Unit) (emptyBucketVersionsWorld Unit) _ rfl

/-! ## The orchestrator's exit codes -/

/-- **C4.** The process terminates with exactly one of four
distinguishable exit codes: every settled run exits with code 0, 1, 2 or
3; the run exits 1 exactly when the object-deletion pass invoked its
error handler, 2 when the object pass was clean and the version-deletion
pass invoked its error handler, 0 on full success, and 3 when both passes
were clean but the overall operation failed afterwards (the success log
threw). -/
theorem mainRun_exit_codes {ε : Type} (fuel : Nat) (w1 : ObjectsWorld ε)
    (w2 : VersionsWorld ε) (finalLog : Except ε Unit)
    (st1 : ObjectsState) (res1 : Except ε Unit) (evs1 : List ε)
    (h1 : pass1Run fuel w1 = some (st1, res1, evs1)) :
    (∀ r, mainRun fuel w1 w2 finalLog = some r →
        r.exitCode = 0 ∨ r.exitCode = 1 ∨ r.exitCode = 2 ∨ r.exitCode = 3)
    ∧ (evs1 ≠ [] → mainRun fuel w1 w2 finalLog =
        some { exitCode := 1, objState := st1, verState := verInit })
    ∧ (evs1 = [] →
        ∀ st2 res2 evs2, pass2Run fuel w2 = some (st2, res2, evs2) →
          (evs2 ≠ [] → mainRun fuel w1 w2 finalLog =
              some { exitCode := 2, objState := st1, verState := st2 })
          ∧ (evs2 = [] → finalLog = Except.ok () →
              mainRun fuel w1 w2 finalLog =
                some { exitCode := 0, objState := st1, verState := st2 })
          ∧ (evs2 = [] → ∀ e, finalLog = Except.error e →
              mainRun fuel w1 w2 finalLog =
                some { exitCode := 3, objState := st1, verState := st2 })) := by
  refine ⟨?_, ?_, ?_⟩
  · intro r h
    unfold mainRun at h
    rw [h1] at h
    by_cases he1 : evs1.isEmpty <;>
      simp only [he1, if_true, Bool.false_eq_true, if_false] at h
    · rcases h2 : pass2Run fuel w2 with _ | ⟨st2, res2, evs2⟩ <;> rw [h2] at h
      · simp at h
      · by_cases he2 : evs2.isEmpty <;>
          simp only [he2, if_true, Bool.false_eq_true, if_false] at h
        · rcases finalLog with e | u
          · rw [← Option.some.inj h]; simp
          · rw [← Option.some.inj h]; simp
        · rw [← Option.some.inj h]; simp
    · rw [← Option.some.inj h]; simp
  · intro hne
    unfold mainRun
    rw [h1]
    have he1 : evs1.isEmpty = false := by
      cases evs1 with
      | nil => exact absurd rfl hne
      | cons a l => rfl
    simp only [he1, Bool.false_eq_true, if_false]
  · rintro rfl st2 res2 evs2 h2
    refine ⟨?_, ?_, ?_⟩
    · intro hne
      unfold mainRun
      rw [h1]
      have he2 : evs2.isEmpty = false := by
        cases evs2 with
        | nil => exact absurd rfl hne
        | cons a l => rfl
      simp only [List.isEmpty_nil, if_true, h2, he2, Bool.false_eq_true, if_false]
    · rintro rfl rfl
      unfold mainRun
      rw [h1]
      simp only [List.isEmpty_nil, if_true, h2]
    · rintro rfl e rfl
      unfold mainRun
      rw [h1]
      simp only [List.isEmpty_nil, if_true, h2]

/-- Witness for C4: a concrete pass-1 failure (first list call fails)
exits with code 1. -/
theorem mainRun_exit_codes_witness :
    mainRun 1 failingListWorld (emptyBucketVersionsWorld String) (Except.ok ()) =
      some { exitCode := 1,
             objState := { marker := none, listCalls := 1, deleteBatches := [] },
             verState := verInit } :=
  (mainRun_exit_codes 1 failingListWorld (emptyBucketVersionsWorld String)
      (Except.ok ()) _ _ _ rfl).2.1 (by simp)

/-- **C6.** Whenever any list or delete call fails during the
object-deletion pass (i.e. pass 1's error handler fired, which is exactly
when its run carries an error event), the process reports the pass-1
failure outcome (exit code 1) and the version-deletion pass is never
started: for every possible versions-side remote, the reported versions
state is the initial one, with zero `listObjectVersions` calls issued. -/
theorem pass1_failure_prevents_pass2 {ε : Type} (fuel : Nat)
    (w1 : ObjectsWorld ε) (st1 : ObjectsState) (res1 : Except ε Unit)
    (e : ε) (evs1 : List ε)
    (h1 : pass1Run fuel w1 = some (st1, res1, e :: evs1)) :
    ∀ (w2 : VersionsWorld ε) (finalLog : Except ε Unit),
      mainRun fuel w1 w2 finalLog =
        some { exitCode := 1, objState := st1, verState := verInit }
      ∧ verInit.listCalls = 0 := by
  intro w2 finalLog
  refine ⟨?_, rfl⟩
  unfold mainRun
  rw [h1]
  simp only [List.isEmpty_cons, Bool.false_eq_true, if_false]

/-- Witness for C6: a pass-1 run whose second list call fails with a
network error exits 1 with both versions-side counters untouched. -/
theorem pass1_failure_prevents_pass2_witness :
    mainRun 2 failingListWorld (emptyBucketVersionsWorld String)
        (Except.ok ()) =
      some { exitCode := 1,
             objState := { marker := none, listCalls := 1, deleteBatches := [] },
             verState := verInit }
    ∧ verInit.listCalls = 0 :=
  pass1_failure_prevents_pass2 2 failingListWorld _ _ "NetworkingError" [] rfl
    (emptyBucketVersionsWorld String) (Except.ok ())

/-! ## The versions pass: marker handling -/

/-- Helper: the markers the versions-pass action carries after processing
a successful list response: both next markers of the response when it is
truncated, both absent otherwise, on every subsequent branch of the
action (whether or not a delete call follows, and whether or not it
fails). -/
lemma versionsAction_markers {ε : Type} (w : VersionsWorld ε) (st : VersionsState)
    (r : ListVersionsResult) (hr : w.listResp st.listCalls = Except.ok r) :
    (versionsAction w st).1.keyMarker = (if r.IsTruncated then r.NextKeyMarker else none)
    ∧ (versionsAction w st).1.versionMarker =
        (if r.IsTruncated then r.NextVersionIdMarker else none) := by
  unfold versionsAction
  simp only [hr]
  refine ⟨?_, ?_⟩ <;>
    by_cases ht : r.IsTruncated <;>
    simp only [ht, if_true, Bool.false_eq_true, if_false] <;>
    by_cases hd : r.DeleteMarkers.length = 0 <;>
    simp only [hd, if_true, Bool.false_eq_true, if_false] <;>
    first
      | trivial
      | ((repeat' split) <;> rfl)

/-- **C5.** Marker carry invariant of the version pass: after every
version-list call, the pass state carries the response's two next markers
together when the response reports truncation, and treats both markers as
absent when it reports no truncation, regardless of the raw response
content; consequently (for responses that carry both next markers when
truncated, as the S3 protocol does) the marker pair is never half-set. -/
theorem versions_marker_carry_invariant {ε : Type} (w : VersionsWorld ε)
    (st : VersionsState) (r : ListVersionsResult)
    (hr : w.listResp st.listCalls = Except.ok r) :
    ((versionsAction w st).1.keyMarker =
        (if r.IsTruncated then r.NextKeyMarker else none)
      ∧ (versionsAction w st).1.versionMarker =
          (if r.IsTruncated then r.NextVersionIdMarker else none))
    ∧ ((r.IsTruncated = true → r.NextKeyMarker.isSome ∧ r.NextVersionIdMarker.isSome) →
        ((versionsAction w st).1.keyMarker.isSome ↔
          (versionsAction w st).1.versionMarker.isSome)) := by
  obtain ⟨hk, hv⟩ := versionsAction_markers w st r hr
  refine ⟨⟨hk, hv⟩, ?_⟩
  intro hwf
  rw [hk, hv]
  by_cases ht : r.IsTruncated
  · obtain ⟨h1, h2⟩ := hwf ht
    simp [ht, h1, h2]
  · simp [ht]

/-- Witness for C5: after the concrete truncated first response, both
markers are carried, set together to the response's next markers. -/
theorem versions_marker_carry_invariant_witness :
    (versionsAction truncatedThenDoneVersionsWorld verInit).1.keyMarker = some "k1"
    ∧ (versionsAction truncatedThenDoneVersionsWorld verInit).1.versionMarker =
        some "v1" := by
  have h := versions_marker_carry_invariant truncatedThenDoneVersionsWorld verInit
    { IsTruncated := true, NextKeyMarker := some "k1",
      NextVersionIdMarker := some "v1",
      Versions := [{ Key := "k0", VersionId := some "v0" }],
      DeleteMarkers := [{ Key := "k0", VersionId := some "m0" }] } rfl
  exact ⟨by rw [h.1.1]; rfl, by rw [h.1.2]; rfl⟩

/-! ## The versions pass skips version-only pages (C1) -/

/-- **C1** (failing input): a version-listing page with V = 1 version and
D = 0 delete markers, so V + D = 1 > 0.  The claim (and §8 of the spec)
requires exactly one bulk-delete call containing one reference for this
page; the code's early return tests only `DeleteMarkers.length === 0` and
resolves without deleting anything, so the completed pass has issued zero
delete calls and the version is left in the bucket — contradicting the
program's own documentation ("make it really empty") and the merge the
spec describes as a deliberate correctness fix. -/
theorem versions_pass_skips_version_only_page :
    versionOnlyPageWorld.listResp 0 =
      Except.ok
        { IsTruncated := false, NextKeyMarker := none, NextVersionIdMarker := none,
          Versions := [{ Key := "key1", VersionId := some "v1" }],
          DeleteMarkers := [] }
    ∧ doUntil (versionsAction versionOnlyPageWorld) verCond onErrOk 1 verInit =
        some ({ keyMarker := none, versionMarker := none, listCalls := 1,
                deleteBatches := [] }, Except.ok (), []) :=
  ⟨rfl, rfl⟩

/-! ## Empty pages in the objects pass (C2) -/

/-- **C2** (counterexample): a first list response whose page of objects
is empty but which carries a continuation token.  The claim says the pass
terminates immediately on the empty page (empty page takes precedence
over the marker); instead the run issues a second list call
(`listCalls = 2`), because `marker` was assigned from the response before
the empty-page check and the loop condition consults only the marker. -/
theorem empty_page_with_token_does_not_terminate :
    emptyPageWithTokenWorld.listResp 0 =
      Except.ok { NextContinuationToken := some "token", Contents := [] }
    ∧ doUntil (objectsAction emptyPageWithTokenWorld) objCond onErrOk 2 objInit =
        some ({ marker := none, listCalls := 2, deleteBatches := [] },
          Except.ok (), []) :=
  ⟨rfl, rfl⟩

/-- **C2** (amended): for every list response whose page of objects is
empty, the step issues no delete call and succeeds, and the pass
terminates after that step if and only if the response's continuation
token is not truthy — the empty page suppresses the delete call, but
termination is decided solely by the marker. -/
theorem empty_page_skips_delete_marker_decides {ε : Type} (w : ObjectsWorld ε)
    (st : ObjectsState) (r : ListObjectsResult)
    (hr : w.listResp st.listCalls = Except.ok r) (hce : r.Contents = []) :
    objectsAction w st =
      ({ st with listCalls := st.listCalls + 1, marker := r.NextContinuationToken }, none)
    ∧ (∀ fuel, jsTruthy r.NextContinuationToken = false →
        doUntil (objectsAction w) objCond onErrOk (fuel + 1) st =
          some ({ st with
                    listCalls := st.listCalls + 1
                    marker := r.NextContinuationToken }, Except.ok (), []))
    ∧ (∀ fuel, jsTruthy r.NextContinuationToken = true →
        doUntil (objectsAction w) objCond onErrOk (fuel + 1) st =
          doUntil (objectsAction w) objCond onErrOk fuel
            ({ st with
                listCalls := st.listCalls + 1
                marker := r.NextContinuationToken })) := by
  have ha : objectsAction w st =
      ({ st with
          listCalls := st.listCalls + 1
          marker := r.NextContinuationToken }, none) := by
    unfold objectsAction
    simp [hr, hce]
  refine ⟨ha, ?_, ?_⟩
  · intro fuel htok
    have hcond : objCond { st with
        listCalls := st.listCalls + 1
        marker := r.NextContinuationToken } = true := by
      simp [objCond, htok]
    simp only [doUntil, ha, hcond, if_true]
  · intro fuel htok
    have hcond : objCond { st with
        listCalls := st.listCalls + 1
        marker := r.NextContinuationToken } = false := by
      simp [objCond, htok]
    simp only [doUntil, ha, hcond, Bool.false_eq_true, if_false]
    rcases hrec : doUntil (objectsAction w) objCond onErrOk fuel
        { st with
          listCalls := st.listCalls + 1
          marker := r.NextContinuationToken } with _ | ⟨s2, res2, evs2⟩
    · rfl
    · obtain ⟨hres, _⟩ := doUntil_settled (objectsAction w) objCond onErrOk
        (fun _ => rfl) fuel _ s2 res2 evs2 hrec
      subst hres
      rfl

/-- Witness for the amended C2: the concrete empty-page-with-token
response leads to a further loop iteration. -/
theorem empty_page_skips_delete_marker_decides_witness :
    doUntil (objectsAction emptyPageWithTokenWorld) objCond onErrOk 2 objInit =
      doUntil (objectsAction emptyPageWithTokenWorld) objCond onErrOk 1
        { marker := some "token", listCalls := 1, deleteBatches := [] } :=
  (empty_page_skips_delete_marker_decides emptyPageWithTokenWorld objInit
    { NextContinuationToken := some "token", Contents := [] } rfl rfl).2.2 1 rfl

/-! ## The delete batch built from a page (C9) -/

/-- Helper: the `forEach`-style fold of `deleteObjects` builds exactly
the map of `deleteEntryOf` over the page. -/
lemma deleteObjects_eq_map (objects : List ObjRef) :
    deleteObjects objects = objects.map deleteEntryOf := by
  suffices h : ∀ (l : List ObjRef) (acc : List DeleteEntry),
      l.foldl
        (fun acc obj =>
          if jsTruthy obj.VersionId then
            acc ++ [{ Key := obj.Key, VersionId := obj.VersionId }]
          else
            acc ++ [{ Key := obj.Key, VersionId := none }])
        acc = acc ++ l.map deleteEntryOf by
    simpa [deleteObjects] using h objects []
  intro l
  induction l with
  | nil => intro acc; simp
  | cons x xs ih =>
    intro acc
    simp only [List.foldl_cons, List.map_cons]
    rw [ih]
    by_cases hx : jsTruthy x.VersionId <;>
      simp [deleteEntryOf, hx, List.append_assoc]

/-- **C9** (counterexample): a listed entry whose version identifier is
the empty string.  The entry has a version identifier (`isSome`), yet the
reference built for it carries none, because the code's `if
(obj.VersionId)` presence test is JavaScript truthiness and `""` is
falsy — refuting "carries a version identifier if and only if the source
entry had one". -/
theorem delete_batch_drops_empty_version_id :
    deleteObjects [{ Key := "k", VersionId := some "" }] =
      [{ Key := "k", VersionId := none }]
    ∧ ({ Key := "k", VersionId := some "" } : ObjRef).VersionId.isSome = true :=
  ⟨rfl, rfl⟩

/-- **C9** (amended): for every input page, the delete batch built by
`deleteObjects` contains exactly one reference per listed entry, in
order, with the entry's key; the reference carries a version identifier
if and only if the source entry had a *truthy* (present and non-empty)
one, and when it does, it is the source entry's identifier. -/
theorem delete_batch_one_ref_per_entry (objects : List ObjRef) :
    deleteObjects objects = objects.map deleteEntryOf
    ∧ (deleteObjects objects).length = objects.length
    ∧ List.Forall₂
        (fun (o : ObjRef) (d : DeleteEntry) =>
          d.Key = o.Key
          ∧ (d.VersionId.isSome ↔ ∃ v, o.VersionId = some v ∧ v ≠ "")
          ∧ (∀ v, d.VersionId = some v → o.VersionId = some v))
        objects (deleteObjects objects) := by
  have hmap := deleteObjects_eq_map objects
  refine ⟨hmap, by rw [hmap]; simp, ?_⟩
  rw [hmap]
  rw [List.forall₂_map_right_iff]
  apply List.forall₂_same.mpr
  intro o _
  unfold deleteEntryOf
  rcases hov : o.VersionId with _ | v
  · simp [jsTruthy, hov]
  · by_cases hv : v = ""
    · subst hv
      simp [jsTruthy, hov]
    · simp [jsTruthy, hov, hv]

/-! ## Idempotence on an already-empty bucket (C8) -/

/-- **C8.** Running the emptying operation on an already-empty,
non-versioned bucket performs exactly one list call in each of the two
passes (`listCalls = 1` in both final states), issues zero delete calls
(both `deleteBatches` empty), and exits with the success outcome
(exit code 0) — for every fuel bound that lets the loops settle. -/
theorem empty_bucket_idempotent {ε : Type} (fuel : Nat) (hf : 1 ≤ fuel) :
    mainRun fuel (emptyBucketObjectsWorld ε) (emptyBucketVersionsWorld ε)
        (Except.ok ()) =
      some { exitCode := 0,
             objState := { marker := none, listCalls := 1, deleteBatches := [] },
             verState := { keyMarker := none, versionMarker := none,
                           listCalls := 1, deleteBatches := [] } } := by
  cases fuel with
  | zero => exact absurd hf (by decide)
  | succ n => rfl

/-- Witness for C8: the run with fuel 1. -/
theorem empty_bucket_idempotent_witness :
    mainRun 1 (emptyBucketObjectsWorld Unit) (emptyBucketVersionsWorld Unit)
        (Except.ok ()) =
      some { exitCode := 0,
             objState := { marker := none, listCalls := 1, deleteBatches := [] },
             verState := { keyMarker := none, versionMarker := none,
                           listCalls := 1, deleteBatches := [] } } :=
  @empty_bucket_idempotent Unit 1 (by decide)

/-! ## Pagination call count over a finite backing collection (C7) -/

/-- Helper: one step of the objects pass against the faithful store:
an empty page (collection exhausted) resolves with the marker absent; a
final non-empty page deletes it and leaves the marker absent; a truncated
page deletes it and carries the token. -/
lemma objectsAction_store {ε : Type} (P : Nat) (hP : 0 < P) (keys : List ObjRef)
    (st : ObjectsState) :
    objectsAction (storeWorld P keys ε) st =
      (if keys.length ≤ st.listCalls * P then
        ({ st with listCalls := st.listCalls + 1, marker := none }, none)
      else if keys.length ≤ st.listCalls * P + P then
        ({ st with
            listCalls := st.listCalls + 1
            marker := none
            deleteBatches := st.deleteBatches ++
              [deleteObjects ((keys.drop (st.listCalls * P)).take P)] }, none)
      else
        ({ st with
            listCalls := st.listCalls + 1
            marker := some "token"
            deleteBatches := st.deleteBatches ++
              [deleteObjects ((keys.drop (st.listCalls * P)).take P)] }, none)) := by
  unfold objectsAction storeWorld
  simp only [List.length_take, List.length_drop]
  by_cases h0 : keys.length ≤ st.listCalls * P
  · rw [if_pos h0]
    have hm : (P < keys.length - st.listCalls * P) = False := by
      simp; omega
    have hz : (min P (keys.length - st.listCalls * P) = 0) = True := by
      simp; omega
    simp only [hm, if_false, hz, if_true]
  · rw [if_neg h0]
    have hz : (min P (keys.length - st.listCalls * P) = 0) = False := by
      simp; omega
    by_cases h1 : keys.length ≤ st.listCalls * P + P
    · rw [if_pos h1]
      have hm : (P < keys.length - st.listCalls * P) = False := by
        simp; omega
      simp only [hm, if_false, hz, if_true]
    · rw [if_neg h1]
      have hm : (P < keys.length - st.listCalls * P) = True := by
        simp; omega
      simp only [hm, if_true, hz, if_false]

/-- Helper: the remaining-call count is at least one. -/
lemma objRemainingCalls_pos (K P n : Nat) (hP : 0 < P) :
    1 ≤ objRemainingCalls K P n := by
  unfold objRemainingCalls
  split
  · exact le_refl 1
  · rename_i h
    rw [Nat.one_le_div_iff hP]
    omega

/-- Helper: one truncated page consumes one list call. -/
lemma objRemainingCalls_step (K P n : Nat) (hP : 0 < P) (h : n * P + P < K) :
    objRemainingCalls K P n = 1 + objRemainingCalls K P (n + 1) := by
  unfold objRemainingCalls
  have hs : (n + 1) * P = n * P + P := by ring
  rw [hs, if_neg (by omega)]
  have hd : K - n * P + P - 1 = (K - (n * P + P) + P - 1) + P := by omega
  rw [hd, Nat.add_div_right _ hP]
  by_cases h2 : K ≤ n * P + P + P
  · rw [if_pos h2]
    have hone : (K - (n * P + P) + P - 1) / P = 1 :=
      Nat.div_eq_of_lt_le (by omega) (by omega)
    omega
  · rw [if_neg h2]
    omega

/-- Helper: the error-free objects pass over the faithful store, started
after `st.listCalls` calls, settles cleanly within any sufficient fuel
and issues exactly `objRemainingCalls` further list calls. -/
lemma objects_store_loop {ε : Type} (P : Nat) (keys : List ObjRef) (hP : 0 < P) :
    ∀ (fuel : Nat) (st : ObjectsState),
      objRemainingCalls keys.length P st.listCalls ≤ fuel →
      ∃ st' : ObjectsState,
        doUntil (objectsAction (storeWorld P keys ε)) objCond onErrOk fuel st =
          some (st', Except.ok (), [])
        ∧ st'.listCalls = st.listCalls + objRemainingCalls keys.length P st.listCalls := by
  intro fuel
  induction fuel with
  | zero =>
    intro st hf
    exact absurd (le_trans (objRemainingCalls_pos keys.length P st.listCalls hP) hf)
      (by decide)
  | succ n ih =>
    intro st hf
    have ha := objectsAction_store P hP keys (ε := ε) st
    by_cases h1 : keys.length ≤ st.listCalls * P + P
    · have hrem : objRemainingCalls keys.length P st.listCalls = 1 := by
        unfold objRemainingCalls
        rw [if_pos h1]
      by_cases h0 : keys.length ≤ st.listCalls * P
      · rw [if_pos h0] at ha
        refine ⟨{ st with listCalls := st.listCalls + 1, marker := none }, ?_, ?_⟩
        · simp only [doUntil, ha]
          rfl
        · rw [hrem]
      · rw [if_neg h0, if_pos h1] at ha
        refine ⟨{ st with
            listCalls := st.listCalls + 1
            marker := none
            deleteBatches := st.deleteBatches ++
              [deleteObjects ((keys.drop (st.listCalls * P)).take P)] }, ?_, ?_⟩
        · simp only [doUntil, ha]
          rfl
        · rw [hrem]
    · rw [if_neg (by omega), if_neg h1] at ha
      have hstep := objRemainingCalls_step keys.length P st.listCalls hP (by omega)
      obtain ⟨st', hrun, hcalls⟩ := ih
        { st with
            listCalls := st.listCalls + 1
            marker := some "token"
            deleteBatches := st.deleteBatches ++
              [deleteObjects ((keys.drop (st.listCalls * P)).take P)] }
        (by
          show objRemainingCalls keys.length P (st.listCalls + 1) ≤ n
          omega)
      refine ⟨st', ?_, ?_⟩
      · simp only [doUntil, ha]
        have hcond : objCond { st with
            listCalls := st.listCalls + 1
            marker := some "token"
            deleteBatches := st.deleteBatches ++
              [deleteObjects ((keys.drop (st.listCalls * P)).take P)] } = false := by
          simp [objCond, jsTruthy]
        rw [hcond]
        simp only [Bool.false_eq_true, if_false, hrun]
      · rw [hcalls]
        show st.listCalls + 1 + objRemainingCalls keys.length P (st.listCalls + 1) =
          st.listCalls + objRemainingCalls keys.length P st.listCalls
        omega

/-- Helper: from the start of the pass, the remaining-call count is the
predicted total. -/
lemma objRemainingCalls_zero (K P : Nat) (hP : 0 < P) :
    objRemainingCalls K P 0 = listCallsForStore K P := by
  unfold objRemainingCalls listCallsForStore
  simp only [Nat.zero_mul, Nat.zero_add, Nat.sub_zero]
  by_cases h0 : K = 0
  · subst h0
    rw [if_pos (by omega), if_pos rfl]
  · rw [if_neg h0]
    by_cases h1 : K ≤ P
    · rw [if_pos h1]
      exact (Nat.div_eq_of_lt_le (by omega) (by omega)).symm
    · rw [if_neg h1]

/-- **C7.** For every finite backing collection of `K = keys.length`
objects and page size `P ≥ 1`, an error-free pagination pass terminates
(settles cleanly within any sufficient fuel, with no error events) after
exactly `⌈K/P⌉` list calls when `K > 0` — the protocol signals completion
on the final data-bearing page, so no extra call is needed — plus the one
additional terminating call in the `K = 0` case, where completion can
only be observed via an absent marker on a call of its own
(`listCallsForStore K P = if K = 0 then 1 else ⌈K/P⌉`). -/
theorem store_pagination_call_count {ε : Type} (P : Nat) (keys : List ObjRef)
    (hP : 0 < P) (fuel : Nat) (hf : listCallsForStore keys.length P ≤ fuel) :
    ∃ st' : ObjectsState,
      doUntil (objectsAction (storeWorld P keys ε)) objCond onErrOk fuel objInit =
        some (st', Except.ok (), [])
      ∧ st'.listCalls = listCallsForStore keys.length P := by
  have h0 : objRemainingCalls keys.length P objInit.listCalls =
      listCallsForStore keys.length P := objRemainingCalls_zero keys.length P hP
  obtain ⟨st', hrun, hcalls⟩ := objects_store_loop P keys hP (ε := ε) fuel objInit
    (by rw [h0]; exact hf)
  refine ⟨st', hrun, ?_⟩
  rw [hcalls, h0]
  show 0 + listCallsForStore keys.length P = listCallsForStore keys.length P
  omega

/-- Witness for C7: three objects with page size 2 are exhausted in
exactly `⌈3/2⌉ = 2` list calls. -/
theorem store_pagination_call_count_witness :
    (0 < 2 ∧ listCallsForStore
        ([{ Key := "a", VersionId := none }, { Key := "b", VersionId := none },
          { Key := "c", VersionId := none }] : List ObjRef).length 2 ≤ 2)
    ∧ ∃ st' : ObjectsState,
        doUntil (objectsAction (storeWorld 2
            [{ Key := "a", VersionId := none }, { Key := "b", VersionId := none },
             { Key := "c", VersionId := none }] Unit))
          objCond onErrOk 2 objInit = some (st', Except.ok (), [])
        ∧ st'.listCalls = listCallsForStore
            ([{ Key := "a", VersionId := none }, { Key := "b", VersionId := none },
              { Key := "c", VersionId := none }] : List ObjRef).length 2 :=
  ⟨⟨by decide, by decide⟩,
    @store_pagination_call_count Unit 2
      [{ Key := "a", VersionId := none }, { Key := "b", VersionId := none },
       { Key := "c", VersionId := none }] (by decide) 2 (by decide)⟩
